import Mathlib

/-
Shallow embedding of the example-to-feature conversion pipeline of
src/examples/utils_glue.py: the data model (InputExample, InputFeatures),
the truncation helper _truncate_seq_pair, and convert_examples_to_features
with its tokenization, truncation, special-token assembly, padding,
length assertions and label resolution.  Python lists become Lean lists,
Python floats carrying only the literals 0.0 and 1.0 become rationals,
and the exceptions the code can raise (AssertionError, KeyError,
ValueError/TypeError, IndexError) become an explicit error type.
-/

namespace UtilsGlue

/-- One labeled or unlabeled instance, mirroring class InputExample of
utils_glue.py: guid, required text_a, optional text_b and optional label. -/
structure InputExample where
  guid : String
  text_a : String
  text_b : Option String
  label : Option String
deriving DecidableEq, Repr

/-- The resolved label_id: an index for classification mode, a parsed
number for regression mode (lines 929-932 of utils_glue.py). -/
inductive LabelId where
  | classification (idx : Nat)
  | regression (value : Rat)
deriving DecidableEq, Repr

/-- A fixed-length feature record, mirroring class InputFeatures of
utils_glue.py. -/
structure InputFeatures where
  input_ids : List Int
  input_mask : List Int
  segment_ids : List Int
  label_id : LabelId
  epa_vec : List Rat
deriving DecidableEq, Repr

/-- The exceptions convert_examples_to_features can raise:
IndexError from popping an empty list in _truncate_seq_pair,
AssertionError from the four length asserts (lines 924-927),
KeyError on an unknown output_mode (line 934),
KeyError on a label missing from label_map (line 930), and
ValueError (or TypeError for a missing label) from float() (line 932). -/
inductive ConvError where
  | popFromEmpty
  | assertLength
  | keyErrorOutputMode (mode : String)
  | keyErrorLabel
  | valueErrorLabel
deriving DecidableEq, Repr

/-- The external tokenizer capability.  tokenizeA models the two-result
call tokenizer.tokenize(text, epa_infos) of line 849 (epa_infos is a fixed
second argument, folded into the capability); tokenizeB models the
one-result call tokenizer.tokenize(text) of line 853; convert_tokens_to_ids
models line 905. -/
structure Tokenizer where
  tokenizeA : String → List String × List Rat
  tokenizeB : String → List String
  convert_tokens_to_ids : List String → List Int

/-- The keyword arguments of convert_examples_to_features
(lines 823-833 of utils_glue.py). -/
structure ConvertConfig where
  cls_token_at_end : Bool
  cls_token : String
  cls_token_segment_id : Int
  sep_token : String
  sep_token_extra : Bool
  pad_on_left : Bool
  pad_token : Int
  pad_token_segment_id : Int
  sequence_a_segment_id : Int
  sequence_b_segment_id : Int
  mask_padding_with_zero : Bool
deriving DecidableEq, Repr

/-- The default keyword-argument values of convert_examples_to_features. -/
def defaultConfig : ConvertConfig :=
  ⟨false, "[CLS]", 1, "[SEP]", false, false, 0, 0, 0, 1, true⟩

/-- Python truthiness of the optional string example.text_b (line 852):
None and the empty string are falsy. -/
def pyTruthyStr : Option String → Bool
  | none => false
  | some s => !s.isEmpty

/-- Python slice l[:k] with a possibly negative bound k, as produced by
max_seq_length - special_tokens_count on line 863: a negative bound counts
from the end of the list. -/
def pySliceTo {α : Type} (l : List α) (k : Int) : List α :=
  if 0 ≤ k then l.take k.toNat else l.take ((l.length : Int) + k).toNat

/-- One bounded run of the while loop of _truncate_seq_pair
(lines 963-970).  Each iteration either exits (total length within
max_length), pops the last element of the strictly longer list, or pops
the last element of tokens_b on ties; popping an empty tokens_b is the
IndexError Python would raise, returned as none.  The fuel argument only
bounds the number of iterations; the initial combined length plus one is
always enough, which the lemmas below prove. -/
def truncateLoop {α : Type} : Nat → List α → List α → Int → Option (List α × List α)
  | 0, _, _, _ => none
  | fuel + 1, a, b, m =>
    if (a.length + b.length : Int) ≤ m then some (a, b)
    else if b.length < a.length then truncateLoop fuel a.dropLast b m
    else if b.isEmpty then none
    else truncateLoop fuel a b.dropLast m

/-- The truncation helper _truncate_seq_pair (lines 956-970), as a pure
function: instead of mutating tokens_a and tokens_b in place it returns
the two shortened lists, and none models the IndexError raised when the
loop pops from an empty list (only reachable when max_length is
negative). -/
def _truncate_seq_pair {α : Type} (a b : List α) (m : Int) : Option (List α × List α) :=
  truncateLoop (a.length + b.length + 1) a b m

/-- Lookup in the dictionary label_map built on line 842 from label_list;
later entries override earlier ones exactly as repeated keys do in the
Python dict comprehension, so this returns the last index holding the
string.  The accumulator i is the index of the head of the remaining
list. -/
def labelMapFindFrom : List String → Nat → String → Option Nat
  | [], _, _ => none
  | l :: ls, i, s =>
    match labelMapFindFrom ls (i + 1) s with
    | some j => some j
    | none => if l == s then some i else none

/-- label_map lookup for a label string: the index the dict comprehension
of line 842 associates to it, none when the string is not a key. -/
def labelMapFind (label_list : List String) (s : String) : Option Nat :=
  labelMapFindFrom label_list 0 s

/-- Drop leading space characters. -/
def dropSpaces : List Char → List Char
  | [] => []
  | c :: cs => if c = ' ' then dropSpaces cs else c :: cs

/-- Drop leading and trailing space characters, the way float() ignores
surrounding whitespace. -/
def trimSpaces (cs : List Char) : List Char :=
  ((dropSpaces (dropSpaces cs).reverse)).reverse

/-- Read a nonempty all-digit character list as a number. -/
def digitsToNatAux : List Char → Nat → Option Nat
  | [], acc => some acc
  | c :: cs, acc =>
    if c.isDigit then digitsToNatAux cs (acc * 10 + (c.toNat - 48)) else none

/-- Read a digit string; none when empty or containing a non-digit. -/
def digitsToNat? (cs : List Char) : Option Nat :=
  if cs.isEmpty then none else digitsToNatAux cs 0

/-- Split a character list at each point character, keeping empty
pieces. -/
def splitDots : List Char → List (List Char)
  | [] => [[]]
  | c :: cs =>
    if c = '.' then [] :: splitDots cs
    else
      match splitDots cs with
      | [] => [[c]]
      | w :: ws => (c :: w) :: ws

/-- Models the Python builtin float() applied to a label string on
line 932, on optionally signed decimal numerals with an optional single
point (the forms GLUE regression labels take); other accepted Python
forms such as exponents are not needed here, and every claim below
depends only on whether the parse succeeds, not on the parsed value. -/
def pyFloatOfString (s : String) : Option Rat :=
  let cs := trimSpaces s.toList
  let sign : Rat := if cs.head? = some '-' then -1 else 1
  let body := if cs.head? = some '-' || cs.head? = some '+' then cs.drop 1 else cs
  match splitDots body with
  | [w] => (digitsToNat? w).map (fun n => sign * (n : Rat))
  | [w, f] =>
    if w.isEmpty && f.isEmpty then none
    else
      match (if w.isEmpty then some 0 else digitsToNat? w),
            (if f.isEmpty then some 0 else digitsToNat? f) with
      | some wn, some fn => some (sign * ((wn : Rat) + (fn : Rat) / (10 : Rat) ^ f.length))
      | _, _ => none
  | _ => none

/-- The label resolution of lines 929-934: classification looks
example.label up in label_map (KeyError when absent, also when the label
is None), regression parses it with float() (ValueError on a
non-numeric string, TypeError on None, both modeled as valueErrorLabel),
and any other output_mode raises KeyError(output_mode). -/
def resolveLabel (output_mode : String) (label_list : List String)
    (label : Option String) : Except ConvError LabelId :=
  if output_mode == "classification" then
    match label with
    | some s =>
      match labelMapFind label_list s with
      | some i => .ok (.classification i)
      | none => .error .keyErrorLabel
    | none => .error .keyErrorLabel
  else if output_mode == "regression" then
    match label with
    | some s =>
      match pyFloatOfString s with
      | some r => .ok (.regression r)
      | none => .error .valueErrorLabel
    | none => .error .valueErrorLabel
  else
    .error (.keyErrorOutputMode output_mode)

/-- The four parallel sequences after assembly (and again after
padding): input_ids, input_mask, segment_ids and epa_vec. -/
structure Assembled where
  ids : List Int
  mask : List Int
  segs : List Int
  epa : List Rat
deriving DecidableEq, Repr

/-- Lines 849-864: tokenize text_a (with its per-token auxiliary
weights), then branch on the truthiness of text_b.  In the pair branch
_truncate_seq_pair shortens tokens_a and tokens_b but, exactly as in the
source, epa_vec is left untouched; in the single branch tokens_a and
epa_vec are sliced in lockstep, with the Python semantics of a possibly
negative slice bound. -/
def prepare (tok : Tokenizer) (maxSeq : Nat) (cfg : ConvertConfig)
    (ex : InputExample) : Option (List String × List Rat × Option (List String)) :=
  let ta0 := (tok.tokenizeA ex.text_a).1
  let epa0 := (tok.tokenizeA ex.text_a).2
  if pyTruthyStr ex.text_b then
    match _truncate_seq_pair ta0 (tok.tokenizeB (ex.text_b.getD ""))
        ((maxSeq : Int) - (if cfg.sep_token_extra then 4 else 3)) with
    | none => none
    | some (ta, tb) => some (ta, epa0, some tb)
  else
    let cut : Int := (maxSeq : Int) - (if cfg.sep_token_extra then 3 else 2)
    if (ta0.length : Int) > cut then some (pySliceTo ta0 cut, pySliceTo epa0 cut, none)
    else some (ta0, epa0, none)

/-- Lines 884-909: append the separator (twice when sep_token_extra),
build segment_ids for span A, extend tokens and segment_ids for span B
when tokens_b is a nonempty list (epa_vec is not extended, exactly as in
the source), place the class token, convert tokens to ids and build the
mask from the id-sequence length. -/
def assembleCore (tok : Tokenizer) (cfg : ConvertConfig) (ta : List String)
    (epaA : List Rat) (tbOpt : Option (List String)) : Assembled :=
  let tokens1 := ta ++ [cfg.sep_token]
  let epa1 := epaA ++ [(1 : Rat)]
  let tokens2 := if cfg.sep_token_extra then tokens1 ++ [cfg.sep_token] else tokens1
  let epa2 := if cfg.sep_token_extra then epa1 ++ [(1 : Rat)] else epa1
  let segs1 := List.replicate tokens2.length cfg.sequence_a_segment_id
  let tokens3 :=
    match tbOpt with
    | some tb => if tb.isEmpty then tokens2 else tokens2 ++ tb ++ [cfg.sep_token]
    | none => tokens2
  let segs2 :=
    match tbOpt with
    | some tb =>
      if tb.isEmpty then segs1
      else segs1 ++ List.replicate (tb.length + 1) cfg.sequence_b_segment_id
    | none => segs1
  let tokens4 := if cfg.cls_token_at_end then tokens3 ++ [cfg.cls_token]
    else cfg.cls_token :: tokens3
  let epa3 := if cfg.cls_token_at_end then epa2 ++ [(1 : Rat)] else (1 : Rat) :: epa2
  let segs3 := if cfg.cls_token_at_end then segs2 ++ [cfg.cls_token_segment_id]
    else cfg.cls_token_segment_id :: segs2
  let ids := tok.convert_tokens_to_ids tokens4
  let mask := List.replicate ids.length (if cfg.mask_padding_with_zero then (1 : Int) else 0)
  ⟨ids, mask, segs3, epa3⟩

/-- The whole pre-padding pipeline for one example (lines 849-909);
none only when _truncate_seq_pair raised IndexError. -/
def assemble (tok : Tokenizer) (maxSeq : Nat) (cfg : ConvertConfig)
    (ex : InputExample) : Option Assembled :=
  match prepare tok maxSeq cfg ex with
  | none => none
  | some (ta, epaA, tbOpt) => some (assembleCore tok cfg ta epaA tbOpt)

/-- Lines 911-922: padding_length is max_seq_length minus the id-sequence
length (clamped at zero, matching list repetition by a negative count in
Python), and all four sequences are padded with their pad values on the
side selected by pad_on_left. -/
def padFeature (maxSeq : Nat) (cfg : ConvertConfig) (A : Assembled) : Assembled :=
  let pl := maxSeq - A.ids.length
  if cfg.pad_on_left then
    ⟨List.replicate pl cfg.pad_token ++ A.ids,
     List.replicate pl (if cfg.mask_padding_with_zero then (0 : Int) else 1) ++ A.mask,
     List.replicate pl cfg.pad_token_segment_id ++ A.segs,
     List.replicate pl (0 : Rat) ++ A.epa⟩
  else
    ⟨A.ids ++ List.replicate pl cfg.pad_token,
     A.mask ++ List.replicate pl (if cfg.mask_padding_with_zero then (0 : Int) else 1),
     A.segs ++ List.replicate pl cfg.pad_token_segment_id,
     A.epa ++ List.replicate pl (0 : Rat)⟩

/-- The four length asserts of lines 924-927, as one boolean (each raises
the same AssertionError). -/
def checksOut (maxSeq : Nat) (P : Assembled) : Bool :=
  P.ids.length == maxSeq && P.mask.length == maxSeq &&
    P.segs.length == maxSeq && P.epa.length == maxSeq

/-- The body of the per-example loop of convert_examples_to_features
(lines 849-952): assemble, pad, run the length asserts, resolve the
label, and build the InputFeatures record.  The diagnostic logging of
the first examples has no effect on the result and is not modeled. -/
def convertExample (tok : Tokenizer) (maxSeq : Nat) (output_mode : String)
    (label_list : List String) (cfg : ConvertConfig)
    (ex : InputExample) : Except ConvError InputFeatures :=
  match assemble tok maxSeq cfg ex with
  | none => .error .popFromEmpty
  | some A =>
    let P := padFeature maxSeq cfg A
    if checksOut maxSeq P then
      match resolveLabel output_mode label_list ex.label with
      | .error e => .error e
      | .ok lid => .ok ⟨P.ids, P.mask, P.segs, lid, P.epa⟩
    else .error .assertLength

/-- convert_examples_to_features (lines 821-953): the per-example loop,
where the first raised exception aborts the whole call and otherwise the
features are appended in input order. -/
def convert_examples_to_features (examples : List InputExample)
    (label_list : List String) (max_seq_length : Nat) (tok : Tokenizer)
    (output_mode : String) (cfg : ConvertConfig) : Except ConvError (List InputFeatures) :=
  match examples with
  | [] => .ok []
  | ex :: rest =>
    match convertExample tok max_seq_length output_mode label_list cfg ex with
    | .error e => .error e
    | .ok f =>
      match convert_examples_to_features rest label_list max_seq_length tok output_mode cfg with
      | .error e => .error e
      | .ok fs => .ok (f :: fs)

/-- Split a character list at each space, keeping empty pieces, the way
String.splitOn with a single-space pattern does. -/
def splitWords : List Char → List (List Char)
  | [] => [[]]
  | c :: cs =>
    if c = ' ' then [] :: splitWords cs
    else
      match splitWords cs with
      | [] => [[c]]
      | w :: ws => (c :: w) :: ws

/-- Whitespace word splitting of a string. -/
def wsSplitString (s : String) : List String :=
  (splitWords s.toList).map (fun cs => ⟨cs⟩)

/-- A concrete whitespace tokenizer for the end-to-end scenarios: it
splits on single spaces, supplies one auxiliary weight of 1.0 per token
of text_a, and maps every token to its length as its integer id. -/
def wsTokenizer : Tokenizer :=
  ⟨fun s => (wsSplitString s, (wsSplitString s).map (fun _ => (1 : Rat))),
   fun s => wsSplitString s,
   fun ts => ts.map (fun t => (t.length : Int))⟩

/-- Dropping an appended prefix of matching length leaves the suffix. -/
theorem drop_append_eq {α : Type} (l₁ l₂ : List α) (n : Nat) (h : l₁.length = n) :
    (l₁ ++ l₂).drop n = l₂ := by
  subst h
  exact List.drop_left l₁ l₂

/-- Taking an appended prefix of matching length returns that prefix. -/
theorem take_append_eq {α : Type} (l₁ l₂ : List α) (n : Nat) (h : l₁.length = n) :
    (l₁ ++ l₂).take n = l₁ := by
  subst h
  exact List.take_left l₁ l₂

/-- The element right after an appended prefix. -/
theorem getElem_append_cons {α : Type} (l₁ l₂ : List α) (x : α) (n : Nat)
    (h : l₁.length = n) : (l₁ ++ x :: l₂)[n]? = some x := by
  subst h
  induction l₁ with
  | nil => simp
  | cons a as ih => simpa using ih

/-- Taking an initial segment commutes with dropping the last element when
the segment stays inside the shortened list. -/
theorem take_dropLast_eq {α : Type} (l : List α) (n : Nat) (h : n ≤ l.length - 1) :
    l.dropLast.take n = l.take n := by
  rw [List.dropLast_eq_take, List.take_take]
  congr 1
  omega

/-- Main characterization of the truncation loop: with nonnegative
max_length and enough fuel, the loop returns initial segments of the two
lists whose combined length is the initial combined length clamped to
max_length, and tokens_a was only shortened if it still is at least as
long as the final tokens_b. -/
theorem truncateLoop_spec {α : Type} (fuel : Nat) :
    ∀ (a b : List α) (m : Int), 0 ≤ m → 0 < fuel →
    a.length + b.length < fuel + m.toNat →
    ∃ la lb, truncateLoop fuel a b m = some (a.take la, b.take lb) ∧
      la ≤ a.length ∧ lb ≤ b.length ∧
      la + lb = min (a.length + b.length) m.toNat ∧
      (la < a.length → lb ≤ la) := by
  induction fuel with
  | zero =>
    intro a b m hm hpos hf
    omega
  | succ fuel ih =>
    intro a b m hm _ hf
    by_cases hle : (a.length + b.length : Int) ≤ m
    · refine ⟨a.length, b.length, ?_, le_rfl, le_rfl, ?_, ?_⟩
      · simp [truncateLoop, hle]
      · omega
      · intro h
        omega
    · by_cases hab : b.length < a.length
      · have hane : a ≠ [] := by
          intro hnil
          rw [hnil] at hab
          simp at hab
        have hdl : a.dropLast.length = a.length - 1 := List.length_dropLast a
        obtain ⟨la, lb, heq, hla, hlb, hsum, hinv⟩ :=
          ih a.dropLast b m hm (by omega) (by omega)
        refine ⟨la, lb, ?_, by omega, hlb, by omega, ?_⟩
        · rw [truncateLoop, if_neg hle, if_pos hab, heq,
            take_dropLast_eq a la (by omega)]
        · intro hlt
          by_cases h2 : la < a.dropLast.length
          · exact hinv h2
          · omega
      · cases b with
        | nil =>
          exfalso
          simp only [List.length_nil] at hab hle
          omega
        | cons x xs =>
          have hdl : (x :: xs).dropLast.length = xs.length := by
            rw [List.length_dropLast]
            rfl
          have hle2 := hle
          have hab2 := hab
          have hf2 := hf
          simp only [List.length_cons] at hle2 hab2 hf2
          obtain ⟨la, lb, heq, hla, hlb, hsum, hinv⟩ :=
            ih a (x :: xs).dropLast m hm (by omega) (by rw [hdl]; omega)
          rw [hdl] at hlb hsum
          refine ⟨la, lb, ?_, hla, ?_, ?_, hinv⟩
          · rw [truncateLoop, if_neg hle, if_neg hab]
            simp only [List.isEmpty_cons, Bool.false_eq_true, if_false]
            rw [heq, take_dropLast_eq (x :: xs) lb
              (by simp only [List.length_cons]; omega)]
          · simp only [List.length_cons]
            omega
          · simp only [List.length_cons]
            omega

/-- C3: for every pair of lists and every nonnegative budget,
_truncate_seq_pair returns initial segments (tokens removed only from the
ends) whose combined length is the initial combined length clamped to the
budget, tokens_a having been shortened only while strictly longer (so its
final length is at least the final length of tokens_b whenever it was
shortened at all); in particular lengths 10 and 3 with budget 8 give
lengths 5 and 3 with tokens_b unchanged. -/
theorem claim_C3_truncation_rule {α : Type} (a b : List α) (m : Int) (hm : 0 ≤ m) :
    (∃ la lb, _truncate_seq_pair a b m = some (a.take la, b.take lb) ∧
      la ≤ a.length ∧ lb ≤ b.length ∧
      la + lb = min (a.length + b.length) m.toNat ∧
      (la < a.length → lb ≤ la)) ∧
    _truncate_seq_pair (List.range 10) (List.range 3) (8 : Int) =
      some (List.range 5, List.range 3) := by
  constructor
  · exact truncateLoop_spec (a.length + b.length + 1) a b m hm (by omega) (by omega)
  · decide

/-- Witness for C3 at lists of lengths 10 and 3 with budget 8. -/
theorem claim_C3_truncation_rule_witness :
    (0 : Int) ≤ 8 ∧
    ((∃ la lb, _truncate_seq_pair (List.range 10) (List.range 3) (8 : Int) =
        some ((List.range 10).take la, (List.range 3).take lb) ∧
        la ≤ (List.range 10).length ∧ lb ≤ (List.range 3).length ∧
        la + lb = min ((List.range 10).length + (List.range 3).length) (8 : Int).toNat ∧
        (la < (List.range 10).length → lb ≤ la)) ∧
      _truncate_seq_pair (List.range 10) (List.range 3) (8 : Int) =
        some (List.range 5, List.range 3)) :=
  ⟨by decide, claim_C3_truncation_rule (List.range 10) (List.range 3) 8 (by decide)⟩

/-- C10: with a nonnegative budget the loop of _truncate_seq_pair
terminates with some result whose combined length is the minimum of the
initial combined length and the budget; moreover whenever an iteration
runs (combined length still exceeds the budget), the list it pops from is
nonempty and the combined length strictly decreases by exactly one. -/
theorem claim_C10_truncation_terminates {α : Type} (a b : List α) (m : Int)
    (hm : 0 ≤ m) :
    (∃ p, _truncate_seq_pair a b m = some p ∧
      p.1.length + p.2.length = min (a.length + b.length) m.toNat) ∧
    ((m : Int) < a.length + b.length →
      (b.length < a.length → a ≠ [] ∧
        ∀ fuel, truncateLoop (fuel + 1) a b m = truncateLoop fuel a.dropLast b m ∧
          a.dropLast.length + b.length + 1 = a.length + b.length) ∧
      (¬ b.length < a.length → b ≠ [] ∧
        ∀ fuel, truncateLoop (fuel + 1) a b m = truncateLoop fuel a b.dropLast m ∧
          a.length + b.dropLast.length + 1 = a.length + b.length)) := by
  constructor
  · obtain ⟨la, lb, heq, hla, hlb, hsum, _⟩ :=
      truncateLoop_spec (a.length + b.length + 1) a b m hm (by omega) (by omega)
    refine ⟨(a.take la, b.take lb), heq, ?_⟩
    simp only [List.length_take]
    omega
  · intro htot
    have hle : ¬ (a.length + b.length : Int) ≤ m := by omega
    constructor
    · intro hab
      have hane : a ≠ [] := by
        intro hnil
        rw [hnil] at hab
        simp at hab
      refine ⟨hane, fun fuel => ⟨?_, ?_⟩⟩
      · rw [truncateLoop, if_neg hle, if_pos hab]
      · have h1 := List.length_dropLast a
        omega
    · intro hab
      cases b with
      | nil =>
        exfalso
        simp only [List.length_nil] at hab htot
        omega
      | cons x xs =>
        refine ⟨by simp, fun fuel => ⟨?_, ?_⟩⟩
        · rw [truncateLoop, if_neg hle, if_neg hab]
          simp only [List.isEmpty_cons, Bool.false_eq_true, if_false]
        · rw [List.length_dropLast]
          simp
          omega

/-- Witness for C10 at lists of lengths 2 and 2 with budget 1. -/
theorem claim_C10_truncation_terminates_witness :
    (0 : Int) ≤ 1 ∧
    (∃ p, _truncate_seq_pair [0, 1] [5, 6] (1 : Int) = some p ∧
      p.1.length + p.2.length =
        min (([0, 1] : List Nat).length + ([5, 6] : List Nat).length) (1 : Int).toNat) :=
  ⟨by decide, (claim_C10_truncation_terminates [0, 1] [5, 6] 1 (by decide)).1⟩

/-- Lookup misses every absent key. -/
theorem labelMapFindFrom_not_mem (ls : List String) (i : Nat) (s : String)
    (h : s ∉ ls) : labelMapFindFrom ls i s = none := by
  induction ls generalizing i with
  | nil => rfl
  | cons l ls ih =>
    have h1 : s ∉ ls := fun hmem => h (List.mem_cons_of_mem l hmem)
    have h2 : l ≠ s := fun he => h (he ▸ List.mem_cons_self l ls)
    simp [labelMapFindFrom, ih (i + 1) h1, h2]

/-- On a duplicate-free list the lookup of the k-th label returns k
(shifted by the starting index). -/
theorem labelMapFindFrom_get (ls : List String) :
    ∀ (k : Nat) (hk : k < ls.length) (i : Nat), ls.Nodup →
      labelMapFindFrom ls i (ls.get ⟨k, hk⟩) = some (i + k) := by
  induction ls with
  | nil =>
    intro k hk
    simp at hk
  | cons l ls ih =>
    intro k hk i hnd
    cases k with
    | zero =>
      have hnmem : l ∉ ls := (List.nodup_cons.mp hnd).1
      show labelMapFindFrom (l :: ls) i l = some (i + 0)
      simp [labelMapFindFrom, labelMapFindFrom_not_mem ls (i + 1) l hnmem]
    | succ k =>
      have hnd2 : ls.Nodup := (List.nodup_cons.mp hnd).2
      have hk2 : k < ls.length := by simpa using hk
      show labelMapFindFrom (l :: ls) i (ls.get ⟨k, hk2⟩) = some (i + (k + 1))
      simp only [labelMapFindFrom, ih k hk2 (i + 1) hnd2, Option.some.injEq]
      omega

/-- Whatever index the lookup returns points back at the key. -/
theorem labelMapFindFrom_sound (ls : List String) :
    ∀ (i : Nat) (s : String) (j : Nat), labelMapFindFrom ls i s = some j →
      ∃ k, ∃ hk : k < ls.length, j = i + k ∧ ls.get ⟨k, hk⟩ = s := by
  induction ls with
  | nil =>
    intro i s j h
    exact absurd h (by simp [labelMapFindFrom])
  | cons l ls ih =>
    intro i s j h
    simp only [labelMapFindFrom] at h
    cases hrec : labelMapFindFrom ls (i + 1) s with
    | some j2 =>
      rw [hrec] at h
      obtain ⟨k, hk, hj, hs⟩ := ih (i + 1) s j2 hrec
      injection h with h
      subst h
      exact ⟨k + 1, by simpa using hk, by omega, hs⟩
    | none =>
      rw [hrec] at h
      by_cases hls : l == s
      · rw [if_pos hls] at h
        injection h with h
        refine ⟨0, by simp, by omega, ?_⟩
        exact eq_of_beq hls
      · rw [if_neg hls] at h
        exact absurd h (by simp)

/-- Every present key is found. -/
theorem labelMapFindFrom_isSome (ls : List String) :
    ∀ (i : Nat) (s : String), s ∈ ls → (labelMapFindFrom ls i s).isSome = true := by
  induction ls with
  | nil =>
    intro i s h
    exact absurd h (List.not_mem_nil s)
  | cons l ls ih =>
    intro i s h
    rcases List.mem_cons.mp h with he | hm
    · subst he
      rw [labelMapFindFrom]
      cases hrec : labelMapFindFrom ls (i + 1) s with
      | some j => simp
      | none => simp
    · have h2 := ih (i + 1) s hm
      rw [labelMapFindFrom]
      cases hrec : labelMapFindFrom ls (i + 1) s with
      | some j => simp
      | none =>
        rw [hrec] at h2
        simp at h2

/-- The label_map lookup misses exactly the strings outside label_list. -/
theorem labelMapFind_none_iff (ls : List String) (s : String) :
    labelMapFind ls s = none ↔ s ∉ ls := by
  constructor
  · intro h hmem
    have h2 := labelMapFindFrom_isSome ls 0 s hmem
    rw [labelMapFind] at h
    rw [h] at h2
    simp at h2
  · intro h
    rw [labelMapFind]
    exact labelMapFindFrom_not_mem ls 0 s h

/-- A successful label_map lookup returns an index of the key. -/
theorem labelMapFind_some (ls : List String) (s : String) (i : Nat)
    (h : labelMapFind ls s = some i) :
    ∃ hi : i < ls.length, ls.get ⟨i, hi⟩ = s := by
  rw [labelMapFind] at h
  obtain ⟨k, hk, hj, hs⟩ := labelMapFindFrom_sound ls 0 s i h
  have hik : i = k := by omega
  subst hik
  exact ⟨hk, hs⟩

/-- The classification arm of resolveLabel on a missing label. -/
theorem resolveLabel_classification_none (ls : List String) :
    resolveLabel "classification" ls none = .error .keyErrorLabel := rfl

/-- The classification arm of resolveLabel on a present label. -/
theorem resolveLabel_classification_some (ls : List String) (s : String) :
    resolveLabel "classification" ls (some s) =
      (match labelMapFind ls s with
       | some i => .ok (.classification i)
       | none => .error .keyErrorLabel) := rfl

/-- The regression arm of resolveLabel on a missing label. -/
theorem resolveLabel_regression_none (ls : List String) :
    resolveLabel "regression" ls none = .error .valueErrorLabel := rfl

/-- The regression arm of resolveLabel on a present label. -/
theorem resolveLabel_regression_some (ls : List String) (s : String) :
    resolveLabel "regression" ls (some s) =
      (match pyFloatOfString s with
       | some r => .ok (.regression r)
       | none => .error .valueErrorLabel) := rfl

/-- C7: on a label_space of distinct label strings, the label_map built
on line 842 sends the label at position i to the integer i, and any index
it returns identifies the label it was built from: the map is a bijection
between the label strings and their positions. -/
theorem claim_C7_label_map_bijection (label_list : List String)
    (hnd : label_list.Nodup) :
    (∀ (i : Nat) (hi : i < label_list.length),
       labelMapFind label_list (label_list.get ⟨i, hi⟩) = some i) ∧
    (∀ (s : String) (j : Nat), labelMapFind label_list s = some j →
       ∃ hj : j < label_list.length, label_list.get ⟨j, hj⟩ = s) := by
  constructor
  · intro i hi
    have h := labelMapFindFrom_get label_list i hi 0 hnd
    rw [labelMapFind]
    simpa using h
  · intro s j h
    exact labelMapFind_some label_list s j h

/-- Witness for C7 on the label list of RelationProcessor. -/
theorem claim_C7_label_map_bijection_witness :
    (["advise", "effect", "int", "mechanism", "NAN"] : List String).Nodup ∧
    labelMapFind ["advise", "effect", "int", "mechanism", "NAN"] "int" = some 2 := by
  refine ⟨by decide, ?_⟩
  have h := (claim_C7_label_map_bijection
    ["advise", "effect", "int", "mechanism", "NAN"] (by decide)).1 2 (by decide)
  simpa using h

/-- C8: label resolution fails in classification mode exactly when the
label is missing (absent or not in label_list), otherwise returning an
index of the label in label_list, and fails in regression mode exactly
when the label does not parse as a number, otherwise returning the parsed
value; it never silently defaults. -/
theorem claim_C8_label_resolution (label_list : List String) (label : Option String) :
    ((∃ e, resolveLabel "classification" label_list label = .error e) ↔
      ¬ ∃ s, label = some s ∧ s ∈ label_list) ∧
    (∀ s, label = some s → s ∈ label_list →
      ∃ i, resolveLabel "classification" label_list label = .ok (.classification i) ∧
        ∃ hi : i < label_list.length, label_list.get ⟨i, hi⟩ = s) ∧
    ((∃ e, resolveLabel "regression" label_list label = .error e) ↔
      ¬ ∃ s r, label = some s ∧ pyFloatOfString s = some r) ∧
    (∀ s r, label = some s → pyFloatOfString s = some r →
      resolveLabel "regression" label_list label = .ok (.regression r)) := by
  refine ⟨?_, ?_, ?_, ?_⟩
  · cases label with
    | none =>
      rw [resolveLabel_classification_none]
      constructor
      · rintro _ ⟨s, hs, _⟩
        exact Option.noConfusion hs
      · intro _
        exact ⟨.keyErrorLabel, rfl⟩
    | some s =>
      rw [resolveLabel_classification_some]
      cases hfind : labelMapFind label_list s with
      | some i =>
        obtain ⟨hi, hget⟩ := labelMapFind_some label_list s i hfind
        constructor
        · rintro ⟨e, he⟩
          exact absurd he (by simp)
        · intro habs
          have hmem : s ∈ label_list := hget ▸ List.get_mem label_list i hi
          exact absurd ⟨s, rfl, hmem⟩ habs
      | none =>
        constructor
        · rintro _ ⟨s2, hs2, hmem⟩
          injection hs2 with hs2
          subst hs2
          exact (labelMapFind_none_iff label_list s).mp hfind hmem
        · intro _
          exact ⟨.keyErrorLabel, rfl⟩
  · intro s hs hmem
    subst hs
    rw [resolveLabel_classification_some]
    have hsome := labelMapFindFrom_isSome label_list 0 s hmem
    cases hfind : labelMapFind label_list s with
    | none =>
      rw [labelMapFind] at hfind
      rw [hfind] at hsome
      exact absurd hsome (by simp)
    | some i =>
      obtain ⟨hi, hget⟩ := labelMapFind_some label_list s i hfind
      exact ⟨i, rfl, hi, hget⟩
  · cases label with
    | none =>
      rw [resolveLabel_regression_none]
      constructor
      · rintro _ ⟨s, r, hs, _⟩
        exact Option.noConfusion hs
      · intro _
        exact ⟨.valueErrorLabel, rfl⟩
    | some s =>
      rw [resolveLabel_regression_some]
      cases hp : pyFloatOfString s with
      | some r =>
        constructor
        · rintro ⟨e, he⟩
          exact absurd he (by simp)
        · intro habs
          exact absurd ⟨s, r, rfl, hp⟩ habs
      | none =>
        constructor
        · rintro _ ⟨s2, r, hs2, hp2⟩
          injection hs2 with hs2
          subst hs2
          rw [hp] at hp2
          exact Option.noConfusion hp2
        · intro _
          exact ⟨.valueErrorLabel, rfl⟩
  · intro s r hs hp
    subst hs
    rw [resolveLabel_regression_some, hp]

/-- Witness for C8: the label 1 resolves to index 1 in the label list of
the binary tasks, and the numeric string 3 parses in regression mode. -/
theorem claim_C8_label_resolution_witness :
    (∃ i, resolveLabel "classification" ["0", "1"] (some "1") = .ok (.classification i) ∧
      ∃ hi : i < (["0", "1"] : List String).length, (["0", "1"] : List String).get ⟨i, hi⟩ = "1") ∧
    (∃ r, pyFloatOfString "3" = some r ∧
      resolveLabel "regression" ["0", "1"] (some "3") = .ok (.regression r)) := by
  constructor
  · exact (claim_C8_label_resolution ["0", "1"] (some "1")).2.1 "1" rfl (by decide)
  · exact ⟨_, rfl, (claim_C8_label_resolution ["0", "1"] (some "3")).2.2.2 "3" _ rfl rfl⟩

/-- C1: the claim says the fatal length check never fires when
max_sequence_length covers the special-token budget and the tokenizer
yields one auxiliary weight per token of text_a, including the pair case.
On the code it does fire for every pair example with a nonempty second
span: epa_vec is neither extended for tokens_b and its separator
(lines 892-894 extend tokens and segment_ids only) nor truncated
alongside tokens_a (line 858), so the assert on line 927 fails.  Here
text_a has one token and text_b two, max_sequence_length is 10 (at least
the budget of 3), and the conversion aborts with the length assertion
instead of producing a feature. -/
theorem claim_C1_pair_case_assert_fires :
    convertExample wsTokenizer 10 "classification" ["0", "1"] defaultConfig
      ⟨"g", "x", some "y z", some "1"⟩ = .error .assertLength := rfl

/-- C2: the end-to-end scenario of the spec: text_a three words, text_b
two words, label 1, max_sequence_length 10, default configuration,
classification over the binary label space and a whitespace tokenizer.
The claim expects a Feature whose four sequences all have length 10; the
code instead aborts in the length assertion, because epa_vec reaches
length 7 (five assembled weights plus two padding zeros) while the other
three sequences reach 10. -/
theorem claim_C2_scenario_hits_assert :
    convert_examples_to_features [⟨"train-1", "a b c", some "d e", some "1"⟩]
      ["0", "1"] 10 wsTokenizer "classification" defaultConfig =
      .error .assertLength := rfl

/-- C4 counterexample: with an invalid output_mode and a non-empty
example sequence whose first example is a pair, the call fails with the
length assertion raised while processing that example, not with the
configuration error: the output_mode check of line 934 runs only after
tokenization, truncation, padding and the asserts, so the failure is not
detected at call time before processing any example. -/
theorem claim_C4_counterexample :
    ("foo" == "classification") = false ∧ ("foo" == "regression") = false ∧
    convert_examples_to_features [⟨"g", "x", some "y z", some "1"⟩] ["0", "1"] 10
      wsTokenizer "foo" defaultConfig = .error .assertLength ∧
    (Except.error ConvError.assertLength :
        Except ConvError (List InputFeatures)) ≠
      .error (.keyErrorOutputMode "foo") := by
  refine ⟨rfl, rfl, rfl, fun h => ?_⟩
  injection h with h
  exact absurd h (by decide)

/-- C4 amended: an output_mode that is neither classification nor
regression makes the whole call fail with KeyError(output_mode), raised
while the first example is processed — after its assembly succeeds and
its padded sequences pass the length checks — and an empty example
sequence returns an empty feature list without any error. -/
theorem claim_C4_amended_config_error (tok : Tokenizer) (maxSeq : Nat)
    (output_mode : String) (label_list : List String) (cfg : ConvertConfig)
    (ex : InputExample) (rest : List InputExample) (A : Assembled)
    (h1 : (output_mode == "classification") = false)
    (h2 : (output_mode == "regression") = false)
    (hA : assemble tok maxSeq cfg ex = some A)
    (hchk : checksOut maxSeq (padFeature maxSeq cfg A) = true) :
    convert_examples_to_features (ex :: rest) label_list maxSeq tok output_mode cfg =
      .error (.keyErrorOutputMode output_mode) ∧
    convert_examples_to_features [] label_list maxSeq tok output_mode cfg =
      .ok [] := by
  have hres : resolveLabel output_mode label_list ex.label =
      .error (.keyErrorOutputMode output_mode) := by
    simp only [resolveLabel, h1, h2, Bool.false_eq_true, if_false]
  have hce : convertExample tok maxSeq output_mode label_list cfg ex =
      .error (.keyErrorOutputMode output_mode) := by
    simp only [convertExample, hA, hchk, if_true, hres]
  constructor
  · simp only [convert_examples_to_features, hce]
  · rfl

/-- Witness for C4 amended: a single-span example that assembles and
passes the length checks, under the invalid output_mode foo. -/
theorem claim_C4_amended_config_error_witness :
    convert_examples_to_features [⟨"g", "a b", none, some "1"⟩] ["0", "1"] 5
      wsTokenizer "foo" defaultConfig = .error (.keyErrorOutputMode "foo") ∧
    convert_examples_to_features [] ["0", "1"] 5 wsTokenizer "foo" defaultConfig =
      .ok [] :=
  claim_C4_amended_config_error wsTokenizer 5 "foo" ["0", "1"] defaultConfig
    ⟨"g", "a b", none, some "1"⟩ []
    ⟨[5, 1, 1, 5], [1, 1, 1, 1], [1, 0, 0, 0], [1, 1, 1, 1]⟩
    rfl rfl rfl rfl

/-- C9: when the call returns normally, the feature list has the same
length as the example list and the feature at every position is the
conversion of the example at the same position. -/
theorem claim_C9_output_order (label_list : List String) (maxSeq : Nat)
    (tok : Tokenizer) (output_mode : String) (cfg : ConvertConfig) :
    ∀ (examples : List InputExample) (fs : List InputFeatures),
      convert_examples_to_features examples label_list maxSeq tok output_mode cfg =
        .ok fs →
      fs.length = examples.length ∧
      List.Forall₂ (fun ex f =>
        convertExample tok maxSeq output_mode label_list cfg ex = .ok f) examples fs := by
  intro examples
  induction examples with
  | nil =>
    intro fs h
    simp only [convert_examples_to_features] at h
    injection h with h
    subst h
    exact ⟨rfl, List.Forall₂.nil⟩
  | cons ex rest ih =>
    intro fs h
    simp only [convert_examples_to_features] at h
    cases hce : convertExample tok maxSeq output_mode label_list cfg ex with
    | error e =>
      rw [hce] at h
      simp at h
    | ok f =>
      rw [hce] at h
      cases hrec : convert_examples_to_features rest label_list maxSeq tok output_mode cfg with
      | error e =>
        rw [hrec] at h
        simp at h
      | ok fs2 =>
        rw [hrec] at h
        simp only [] at h
        injection h with h
        subst h
        obtain ⟨hlen, hfa⟩ := ih fs2 hrec
        exact ⟨by simp [hlen], List.Forall₂.cons hce hfa⟩

/-- Witness for C9 on a two-example run. -/
theorem claim_C9_output_order_witness :
    convert_examples_to_features
      [⟨"g1", "a b", none, some "0"⟩, ⟨"g2", "c", none, some "1"⟩]
      ["0", "1"] 5 wsTokenizer "classification" defaultConfig =
      .ok [⟨[5, 1, 1, 5, 0], [1, 1, 1, 1, 0], [1, 0, 0, 0, 0], .classification 0, [1, 1, 1, 1, 0]⟩,
           ⟨[5, 1, 5, 0, 0], [1, 1, 1, 0, 0], [1, 0, 0, 0, 0], .classification 1, [1, 1, 1, 0, 0]⟩] ∧
    ([⟨[5, 1, 1, 5, 0], [1, 1, 1, 1, 0], [1, 0, 0, 0, 0], .classification 0, [1, 1, 1, 1, 0]⟩,
      ⟨[5, 1, 5, 0, 0], [1, 1, 1, 0, 0], [1, 0, 0, 0, 0], .classification 1, [1, 1, 1, 0, 0]⟩] :
        List InputFeatures).length =
      ([⟨"g1", "a b", none, some "0"⟩, ⟨"g2", "c", none, some "1"⟩] :
        List InputExample).length ∧
    List.Forall₂ (fun ex f =>
      convertExample wsTokenizer 5 "classification" ["0", "1"] defaultConfig ex = .ok f)
      [⟨"g1", "a b", none, some "0"⟩, ⟨"g2", "c", none, some "1"⟩]
      [⟨[5, 1, 1, 5, 0], [1, 1, 1, 1, 0], [1, 0, 0, 0, 0], .classification 0, [1, 1, 1, 1, 0]⟩,
       ⟨[5, 1, 5, 0, 0], [1, 1, 1, 0, 0], [1, 0, 0, 0, 0], .classification 1, [1, 1, 1, 0, 0]⟩] := by
  refine ⟨rfl, ?_⟩
  exact claim_C9_output_order ["0", "1"] 5 wsTokenizer "classification" defaultConfig
    [⟨"g1", "a b", none, some "0"⟩, ⟨"g2", "c", none, some "1"⟩]
    [⟨[5, 1, 1, 5, 0], [1, 1, 1, 1, 0], [1, 0, 0, 0, 0], .classification 0, [1, 1, 1, 1, 0]⟩,
     ⟨[5, 1, 5, 0, 0], [1, 1, 1, 0, 0], [1, 0, 0, 0, 0], .classification 1, [1, 1, 1, 0, 0]⟩]
    rfl

/-- The mask built on line 909 is a constant list as long as the id
sequence. -/
theorem assembleCore_mask_eq (tok : Tokenizer) (cfg : ConvertConfig)
    (ta : List String) (epaA : List Rat) (tbOpt : Option (List String)) :
    (assembleCore tok cfg ta epaA tbOpt).mask =
      List.replicate (assembleCore tok cfg ta epaA tbOpt).ids.length
        (if cfg.mask_padding_with_zero then (1 : Int) else 0) := rfl

/-- The segment ids produced by assembly carry the class-token segment id
at the configured end (lines 896-903). -/
theorem assembleCore_segs_eq (tok : Tokenizer) (cfg : ConvertConfig)
    (ta : List String) (epaA : List Rat) (tbOpt : Option (List String)) :
    ∃ body, (assembleCore tok cfg ta epaA tbOpt).segs =
      (if cfg.cls_token_at_end then body ++ [cfg.cls_token_segment_id]
       else cfg.cls_token_segment_id :: body) :=
  ⟨_, rfl⟩

/-- Destructing a successful conversion: the feature is the padded
assembly, the length checks passed, and the label resolved. -/
theorem convertExample_ok (tok : Tokenizer) (maxSeq : Nat) (output_mode : String)
    (label_list : List String) (cfg : ConvertConfig) (ex : InputExample)
    (f : InputFeatures)
    (h : convertExample tok maxSeq output_mode label_list cfg ex = .ok f) :
    ∃ A lid, assemble tok maxSeq cfg ex = some A ∧
      checksOut maxSeq (padFeature maxSeq cfg A) = true ∧
      resolveLabel output_mode label_list ex.label = .ok lid ∧
      f = ⟨(padFeature maxSeq cfg A).ids, (padFeature maxSeq cfg A).mask,
           (padFeature maxSeq cfg A).segs, lid, (padFeature maxSeq cfg A).epa⟩ := by
  simp only [convertExample] at h
  split at h
  · exact absurd h (by simp)
  · rename_i A hA
    split at h
    · rename_i hchk
      split at h
      · exact absurd h (by simp)
      · rename_i lid hres
        injection h with h
        exact ⟨A, lid, hA, hchk, hres, h.symm⟩
    · exact absurd h (by simp)

/-- A successful assembly is an assembleCore value. -/
theorem assemble_ok (tok : Tokenizer) (maxSeq : Nat) (cfg : ConvertConfig)
    (ex : InputExample) (A : Assembled)
    (h : assemble tok maxSeq cfg ex = some A) :
    ∃ ta epaA tbOpt, A = assembleCore tok cfg ta epaA tbOpt := by
  simp only [assemble] at h
  split at h
  · exact absurd h (by simp)
  · rename_i ta epaA tbOpt hP
    injection h with h
    exact ⟨ta, epaA, tbOpt, h.symm⟩

/-- C5: in every produced Feature the padding block has length
max_seq_length minus the assembled sequence length (the length of the
id sequence the deterministic assembly step returns for the example),
and each of the four sequences of the Feature is exactly its assembled
core — all four cores sharing that same length — followed by the pad
block when pad_on_left is false, and preceded by it when pad_on_left is
true, the block being filled with pad_token, the inverse of the
real-token mask value, pad_token_segment_id and 0.0 respectively: the
padding positions are precisely the contiguous suffix, respectively
prefix, of that length. -/
theorem claim_C5_padding_contiguous (tok : Tokenizer) (maxSeq : Nat)
    (output_mode : String) (label_list : List String) (cfg : ConvertConfig)
    (ex : InputExample) (f : InputFeatures)
    (h : convertExample tok maxSeq output_mode label_list cfg ex = .ok f) :
    ∃ A, assemble tok maxSeq cfg ex = some A ∧
      A.ids.length ≤ maxSeq ∧
      A.mask.length = A.ids.length ∧
      A.segs.length = A.ids.length ∧
      A.epa.length = A.ids.length ∧
      (cfg.pad_on_left = false →
        f.input_ids = A.ids ++ List.replicate (maxSeq - A.ids.length) cfg.pad_token ∧
        f.input_mask = A.mask ++ List.replicate (maxSeq - A.ids.length)
          (if cfg.mask_padding_with_zero then (0 : Int) else 1) ∧
        f.segment_ids = A.segs ++
          List.replicate (maxSeq - A.ids.length) cfg.pad_token_segment_id ∧
        f.epa_vec = A.epa ++ List.replicate (maxSeq - A.ids.length) (0 : Rat)) ∧
      (cfg.pad_on_left = true →
        f.input_ids = List.replicate (maxSeq - A.ids.length) cfg.pad_token ++ A.ids ∧
        f.input_mask = List.replicate (maxSeq - A.ids.length)
          (if cfg.mask_padding_with_zero then (0 : Int) else 1) ++ A.mask ∧
        f.segment_ids =
          List.replicate (maxSeq - A.ids.length) cfg.pad_token_segment_id ++ A.segs ∧
        f.epa_vec = List.replicate (maxSeq - A.ids.length) (0 : Rat) ++ A.epa) := by
  obtain ⟨A, lid, hA, hchk, hres, hf⟩ :=
    convertExample_ok tok maxSeq output_mode label_list cfg ex f h
  obtain ⟨ta, epaA, tbOpt, hAc⟩ := assemble_ok tok maxSeq cfg ex A hA
  have hmask : A.mask.length = A.ids.length := by
    rw [hAc, assembleCore_mask_eq, List.length_replicate]
  subst hf
  cases hplc : cfg.pad_on_left with
  | false =>
    simp only [checksOut, padFeature, hplc, Bool.false_eq_true, if_false,
      Bool.and_eq_true, beq_iff_eq, List.length_append, List.length_replicate] at hchk
    refine ⟨A, hA, by omega, hmask, by omega, by omega, ?_, ?_⟩
    · intro _
      simp [padFeature, hplc]
    · intro habs
      exact absurd habs (by simp)
  | true =>
    simp only [checksOut, padFeature, hplc, if_true,
      Bool.and_eq_true, beq_iff_eq, List.length_append, List.length_replicate] at hchk
    refine ⟨A, hA, by omega, hmask, by omega, by omega, ?_, ?_⟩
    · intro habs
      exact absurd habs (by simp)
    · intro _
      simp [padFeature, hplc]

/-- Witness for C5 on a single-span example with one padding position. -/
theorem claim_C5_padding_contiguous_witness :
    ∃ A, assemble wsTokenizer 5 defaultConfig ⟨"g", "a b", none, some "1"⟩ = some A ∧
      A.ids.length ≤ 5 ∧
      A.mask.length = A.ids.length ∧
      A.segs.length = A.ids.length ∧
      A.epa.length = A.ids.length ∧
      (defaultConfig.pad_on_left = false →
        ([5, 1, 1, 5, 0] : List Int) =
          A.ids ++ List.replicate (5 - A.ids.length) defaultConfig.pad_token ∧
        ([1, 1, 1, 1, 0] : List Int) = A.mask ++ List.replicate (5 - A.ids.length)
          (if defaultConfig.mask_padding_with_zero then (0 : Int) else 1) ∧
        ([1, 0, 0, 0, 0] : List Int) = A.segs ++
          List.replicate (5 - A.ids.length) defaultConfig.pad_token_segment_id ∧
        ([1, 1, 1, 1, 0] : List Rat) =
          A.epa ++ List.replicate (5 - A.ids.length) (0 : Rat)) ∧
      (defaultConfig.pad_on_left = true →
        ([5, 1, 1, 5, 0] : List Int) =
          List.replicate (5 - A.ids.length) defaultConfig.pad_token ++ A.ids ∧
        ([1, 1, 1, 1, 0] : List Int) = List.replicate (5 - A.ids.length)
          (if defaultConfig.mask_padding_with_zero then (0 : Int) else 1) ++ A.mask ∧
        ([1, 0, 0, 0, 0] : List Int) =
          List.replicate (5 - A.ids.length) defaultConfig.pad_token_segment_id ++ A.segs ∧
        ([1, 1, 1, 1, 0] : List Rat) =
          List.replicate (5 - A.ids.length) (0 : Rat) ++ A.epa) :=
  claim_C5_padding_contiguous wsTokenizer 5 "classification" ["0", "1"] defaultConfig
    ⟨"g", "a b", none, some "1"⟩
    ⟨[5, 1, 1, 5, 0], [1, 1, 1, 1, 0], [1, 0, 0, 0, 0], .classification 1, [1, 1, 1, 1, 0]⟩
    rfl

/-- C6 counterexample: with pad_on_left true (and the class token at the
start, its segment id 1, the padding segment id 0), the produced feature
for a one-token example under max_sequence_length 5 has segment_ids
starting with two padding zeros, so position 0 does not carry
cls_token_segment_id even though cls_token_at_end is false. -/
theorem claim_C6_counterexample :
    ∃ f, convertExample wsTokenizer 5 "classification" ["0", "1"]
        { defaultConfig with pad_on_left := true } ⟨"g", "x", none, some "1"⟩ =
        .ok f ∧
      ({ defaultConfig with pad_on_left := true }).cls_token_at_end = false ∧
      f.segment_ids[0]? ≠
        some ({ defaultConfig with pad_on_left := true }).cls_token_segment_id := by
  refine ⟨⟨[0, 0, 5, 1, 5], [0, 0, 1, 1, 1], [0, 0, 1, 0, 0], .classification 1,
    [0, 0, 1, 1, 1]⟩, rfl, rfl, fun hcontra => ?_⟩
  injection hcontra with hcontra
  exact absurd hcontra (by decide)

/-- C6 amended: in every produced Feature the class-token segment id sits
at the first non-padding position when cls_token_at_end is false (index 0
when padding is on the right, index padding_length when it is on the
left) and at the last non-padding position when cls_token_at_end is true
(index assembled-length minus one when padding is on the right, the last
index when it is on the left); the claim's statement that segment_ids[0]
carries it whenever cls_token_at_end is false holds only for
pad_on_left false. -/
theorem claim_C6_cls_token_placement (tok : Tokenizer) (maxSeq : Nat)
    (output_mode : String) (label_list : List String) (cfg : ConvertConfig)
    (ex : InputExample) (f : InputFeatures)
    (h : convertExample tok maxSeq output_mode label_list cfg ex = .ok f) :
    ∃ L, 1 ≤ L ∧ L ≤ maxSeq ∧
      (cfg.pad_on_left = false →
        f.segment_ids.drop L = List.replicate (maxSeq - L) cfg.pad_token_segment_id ∧
        (cfg.cls_token_at_end = false →
          f.segment_ids[0]? = some cfg.cls_token_segment_id) ∧
        (cfg.cls_token_at_end = true →
          f.segment_ids[L - 1]? = some cfg.cls_token_segment_id)) ∧
      (cfg.pad_on_left = true →
        f.segment_ids.take (maxSeq - L) =
          List.replicate (maxSeq - L) cfg.pad_token_segment_id ∧
        (cfg.cls_token_at_end = false →
          f.segment_ids[maxSeq - L]? = some cfg.cls_token_segment_id) ∧
        (cfg.cls_token_at_end = true →
          f.segment_ids[maxSeq - 1]? = some cfg.cls_token_segment_id)) := by
  obtain ⟨A, lid, hA, hchk, hres, hf⟩ :=
    convertExample_ok tok maxSeq output_mode label_list cfg ex f h
  obtain ⟨ta, epaA, tbOpt, hAc⟩ := assemble_ok tok maxSeq cfg ex A hA
  have hsegs0 := assembleCore_segs_eq tok cfg ta epaA tbOpt
  rw [← hAc] at hsegs0
  obtain ⟨body, hsegs⟩ := hsegs0
  have hbody : A.segs.length = body.length + 1 := by
    rw [hsegs]
    cases cfg.cls_token_at_end <;> simp
  subst hf
  cases hplc : cfg.pad_on_left with
  | false =>
    simp only [checksOut, padFeature, hplc, Bool.false_eq_true, if_false,
      Bool.and_eq_true, beq_iff_eq, List.length_append, List.length_replicate] at hchk
    refine ⟨A.ids.length, by omega, by omega, ?_, ?_⟩
    · intro _
      simp only [padFeature, hplc, Bool.false_eq_true, if_false]
      refine ⟨drop_append_eq A.segs _ A.ids.length (by omega), ?_, ?_⟩
      · intro hcls
        simp only [hsegs, hcls, Bool.false_eq_true, if_false, List.cons_append]
        simp
      · intro hcls
        simp only [hsegs, hcls, if_true]
        rw [List.append_assoc, List.singleton_append]
        exact getElem_append_cons body _ _ (A.ids.length - 1) (by omega)
    · intro habs
      exact absurd habs (by simp)
  | true =>
    simp only [checksOut, padFeature, hplc, if_true,
      Bool.and_eq_true, beq_iff_eq, List.length_append, List.length_replicate] at hchk
    refine ⟨A.ids.length, by omega, by omega, ?_, ?_⟩
    · intro habs
      exact absurd habs (by simp)
    · intro _
      simp only [padFeature, hplc, if_true]
      refine ⟨take_append_eq _ A.segs (maxSeq - A.ids.length)
        (List.length_replicate _ _), ?_, ?_⟩
      · intro hcls
        simp only [hsegs, hcls, Bool.false_eq_true, if_false]
        exact getElem_append_cons _ body _ (maxSeq - A.ids.length)
          (List.length_replicate _ _)
      · intro hcls
        simp only [hsegs, hcls, if_true]
        rw [← List.append_assoc]
        refine getElem_append_cons _ [] _ (maxSeq - 1) ?_
        simp only [List.length_append, List.length_replicate]
        omega

/-- Witness for C6 amended, on a single-span example padded on the
right under the default configuration. -/
theorem claim_C6_cls_token_placement_witness :
    ∃ L, 1 ≤ L ∧ L ≤ 5 ∧
      (defaultConfig.pad_on_left = false →
        ([1, 0, 0, 0, 0] : List Int).drop L =
          List.replicate (5 - L) defaultConfig.pad_token_segment_id ∧
        (defaultConfig.cls_token_at_end = false →
          ([1, 0, 0, 0, 0] : List Int)[0]? = some defaultConfig.cls_token_segment_id) ∧
        (defaultConfig.cls_token_at_end = true →
          ([1, 0, 0, 0, 0] : List Int)[L - 1]? = some defaultConfig.cls_token_segment_id)) ∧
      (defaultConfig.pad_on_left = true →
        ([1, 0, 0, 0, 0] : List Int).take (5 - L) =
          List.replicate (5 - L) defaultConfig.pad_token_segment_id ∧
        (defaultConfig.cls_token_at_end = false →
          ([1, 0, 0, 0, 0] : List Int)[5 - L]? = some defaultConfig.cls_token_segment_id) ∧
        (defaultConfig.cls_token_at_end = true →
          ([1, 0, 0, 0, 0] : List Int)[5 - 1]? = some defaultConfig.cls_token_segment_id)) :=
  claim_C6_cls_token_placement wsTokenizer 5 "classification" ["0", "1"] defaultConfig
    ⟨"g", "a b", none, some "1"⟩
    ⟨[5, 1, 1, 5, 0], [1, 1, 1, 1, 0], [1, 0, 0, 0, 0], .classification 1, [1, 1, 1, 1, 0]⟩
    rfl

end UtilsGlue
